import Mathlib

/-!
Verification development for a small time-series forecasting pipeline
(preprocess / train / evaluate).  The preprocessing step (src/preprocess.py)
cleans a datetime-indexed table, engineers calendar features, applies a
one-step lag to the feature columns, and splits chronologically into
train/test partitions.  The trainer (src/train.py) dispatches on a model-type
name and persists a fitted model.  The raw-data loader (src/preprocess.py,
`load_raw_file`) parses heterogeneous raw input into a datetime-indexed table.

Tables are embedded row-major: a row is a timestamp paired with a list of
cells, one per column name.  Missing values (pandas NaN) are `Option.none`;
numeric cells are rationals.
-/

/-- A datetime index entry.  `time` is the linear instant used for ordering;
`hour`, `dayofweek`, `month`, `year` are the calendar components pandas reads
off a `DatetimeIndex` (`.hour`, `.dayofweek`, `.month`, `.year`). -/
structure Timestamp where
  time : Int
  hour : Nat
  dayofweek : Nat
  month : Nat
  year : Nat
deriving DecidableEq, Repr

/-- A raw cell as read from CSV before numeric coercion: a numeric value, a
non-numeric string, or an already-missing entry. -/
inductive RawCell where
  | num (q : ℚ)
  | text
  | missing
deriving DecidableEq, Repr

/-- The raw table handed to `preprocess_data` (result of `pd.read_csv` with a
parsed datetime index). -/
structure RawFrame where
  colNames : List String
  rows : List (Timestamp × List RawCell)
deriving DecidableEq, Repr

/-- A cleaned/derived table: datetime index plus numeric-or-missing cells. -/
structure DataFrame where
  colNames : List String
  rows : List (Timestamp × List (Option ℚ))
deriving DecidableEq, Repr

/-- `pd.to_numeric(col, errors='coerce')` on a single cell: numeric values
pass through, non-numeric strings and missing entries become NaN. -/
def toNumericCell : RawCell → Option ℚ
  | RawCell.num q => some q
  | RawCell.text => none
  | RawCell.missing => none

/-- One row of forward fill: a missing cell takes the carried value from the
most recent valid prior row. -/
def ffillStep (prev cur : List (Option ℚ)) : List (Option ℚ) :=
  List.zipWith (fun p c => match c with | some q => some q | none => p) prev cur

/-- `df.ffill()` over the rows, carrying the last filled row forward. -/
def ffillAux : List (Option ℚ) → List (Timestamp × List (Option ℚ)) →
    List (Timestamp × List (Option ℚ))
  | _, [] => []
  | prev, (t, v) :: rest =>
    let cur := ffillStep prev v
    (t, cur) :: ffillAux cur rest

/-- The cleaning step of `preprocess_data`: coerce every column to numeric
(non-numeric entries become missing), then forward-fill missing entries.
The index is not touched. -/
def cleanData (raw : RawFrame) : DataFrame :=
  let coerced := raw.rows.map (fun r => (r.1, r.2.map toNumericCell))
  ⟨raw.colNames, ffillAux (List.replicate raw.colNames.length none) coerced⟩

/-- `df[name] = f(index)`: pandas column assignment — overwrite the column in
place when the name exists, else append it on the right. -/
def setColumn (df : DataFrame) (name : String) (f : Timestamp → ℚ) : DataFrame :=
  if name ∈ df.colNames then
    ⟨df.colNames,
     df.rows.map (fun r =>
       (r.1, List.zipWith (fun c v => if c = name then some (f r.1) else v) df.colNames r.2))⟩
  else
    ⟨df.colNames ++ [name], df.rows.map (fun r => (r.1, r.2 ++ [some (f r.1)]))⟩

/-- The calendar-feature step: `df['hour_of_day'] = df.index.hour`,
`df['day_of_week'] = df.index.dayofweek`, `df['month'] = df.index.month`,
`df['year'] = df.index.year`. -/
def addCalendar (df : DataFrame) : DataFrame :=
  setColumn
    (setColumn
      (setColumn
        (setColumn df "hour_of_day" (fun t => (t.hour : ℚ)))
        "day_of_week" (fun t => (t.dayofweek : ℚ)))
      "month" (fun t => (t.month : ℚ)))
    "year" (fun t => (t.year : ℚ))

/-- Value of the column named `s` in a row whose cells are `vals` under the
header `names` (first matching label, missing when absent). -/
def getCell (names : List String) (vals : List (Option ℚ)) (s : String) : Option ℚ :=
  (((names.zip vals).lookup s).join)

/-- `df[sel]`: column projection by a list of names. -/
def selectCols (df : DataFrame) (sel : List String) : DataFrame :=
  ⟨sel, df.rows.map (fun r => (r.1, sel.map (getCell df.colNames r.2)))⟩

/-- `create_lagged_features`: `df.shift(lag)` (each row takes the values of
the row `lag` positions earlier; the first `lag` rows become all-missing),
with every column renamed by the lag-marker suffix. -/
def create_lagged_features (df : DataFrame) (lag : Nat) : DataFrame :=
  let noneRow : List (Option ℚ) := List.replicate df.colNames.length none
  ⟨df.colNames.map (fun col => col ++ ("_lag" ++ toString lag)),
   List.zipWith (fun r v => (r.1, v)) df.rows
     (List.replicate lag noneRow ++ df.rows.map Prod.snd)⟩

/-- `pd.concat([a, b], axis=1)` for two frames sharing the same index:
columns of `b` appended to the right of `a`, rows paired positionally. -/
def concatCols (a b : DataFrame) : DataFrame :=
  ⟨a.colNames ++ b.colNames,
   List.zipWith (fun r s => (r.1, r.2 ++ s.2)) a.rows b.rows⟩

/-- `df.dropna()`: keep only the rows with no missing cell. -/
def dropna (df : DataFrame) : DataFrame :=
  ⟨df.colNames, df.rows.filter (fun r => r.2.all Option.isSome)⟩

/-- `df.drop(columns=[name])`: remove every column labelled `name`. -/
def dropCol (df : DataFrame) (name : String) : DataFrame :=
  ⟨df.colNames.filter (fun c => c ≠ name),
   df.rows.map (fun r =>
     (r.1, ((df.colNames.zip r.2).filter (fun p => p.1 ≠ name)).map Prod.snd))⟩

/-- Python `int()` applied to an exact rational: truncation toward zero,
i.e. the numerator `tdiv` the (positive) denominator. -/
def pyInt (q : ℚ) : Int :=
  q.num.tdiv q.den

/-- `test_size = int(len(full_df) * test_split_ratio)`, with the product
written as the exact rational `(n * frac.num) / frac.den` so that it
evaluates; `testSize_eq_pyInt_mul` proves it equal to
`pyInt ((n : ℚ) * frac)` and `testSize_eq_floor` to `⌊(n : ℚ) * frac⌋` for a
nonnegative fraction. -/
def testSize (n : Nat) (frac : ℚ) : Int :=
  pyInt (Rat.divInt ((n : Int) * frac.num) (frac.den : Int))

/-- Python slice `l[:-k]` for an integer `k` (note `l[:-0]` is `l[:0]`,
the empty list). -/
def pySliceToNeg (l : List α) (k : Int) : List α :=
  if 0 < k then l.take (l.length - k.toNat)
  else if k = 0 then []
  else l.take (-k).toNat

/-- Python slice `l[-k:]` for an integer `k` (note `l[-0:]` is `l[0:]`,
the whole list). -/
def pySliceFromNeg (l : List α) (k : Int) : List α :=
  if 0 < k then l.drop (l.length - k.toNat)
  else if k = 0 then l
  else l.drop (-k).toNat

/-- The common cut position of the two python slices `l[:-k]` and `l[-k:]`
on a list of length `n`: both slices cut the list at this point. -/
def sliceSplitPoint (n : Nat) (k : Int) : Nat :=
  if 0 < k then n - k.toNat else if k = 0 then 0 else (-k).toNat

/-- The configuration read from `params.yaml` that `preprocess_data` uses:
`preprocess.target_column`, `train.features`, `preprocess.test_split_ratio`. -/
structure Params where
  target_column : String
  features : List String
  split_fraction : ℚ
deriving DecidableEq, Repr

/-- The cleaned table with calendar features added (the state of `df` in
`preprocess_data` just before target/feature separation). -/
def pipelineTable (raw : RawFrame) : DataFrame :=
  addCalendar (cleanData raw)

/-- `full_df` in `preprocess_data`: target column concatenated with the
one-step-lagged features, with all-missing rows dropped. -/
def fullTable (raw : RawFrame) (ps : Params) : DataFrame :=
  let df := pipelineTable raw
  let y := selectCols df [ps.target_column]
  let X := selectCols df ps.features
  let X_lagged := create_lagged_features X 1
  dropna (concatCols y X_lagged)

/-- The four persisted partitions produced by `preprocess_data`. -/
structure PreprocessOutput where
  X_train : DataFrame
  X_test : DataFrame
  y_train : DataFrame
  y_test : DataFrame
deriving DecidableEq, Repr

/-- `preprocess_data` (src/preprocess.py): clean, engineer calendar features,
lag the features, drop missing rows, then split chronologically with
`X.iloc[:-test_size]` / `X.iloc[-test_size:]` where
`test_size = int(len(full_df) * test_split_ratio)`. -/
def preprocess_data (raw : RawFrame) (ps : Params) : PreprocessOutput :=
  let full := fullTable raw ps
  let y := selectCols full [ps.target_column]
  let X := dropCol full ps.target_column
  let k := testSize full.rows.length ps.split_fraction
  ⟨⟨X.colNames, pySliceToNeg X.rows k⟩,
   ⟨X.colNames, pySliceFromNeg X.rows k⟩,
   ⟨y.colNames, pySliceToNeg y.rows k⟩,
   ⟨y.colNames, pySliceFromNeg y.rows k⟩⟩

/-- Cell of `df` at row `i`, column position `j` (as optional: `none` when
out of range, `some none` when in range but missing). -/
def cellAt (df : DataFrame) (i j : Nat) : Option (Option ℚ) :=
  df.rows[i]?.bind (fun r => r.2[j]?)

/-!
Trainer (src/train.py).  `get_model_instance` dispatches on the model-type
name over a closed set of three regressor types; `train_model` constructs the
instance, fits it to the training partition, and writes the fitted model to
`models/<file_name>`.  A `ValueError` for an unsupported name is raised before
anything is written, so the model store is untouched on that error.  Fitting
and serialization are opaque library calls; a fitted artifact is modelled as
the constructed instance together with the data it was fitted on. -/

/-- A model instance as constructed by `get_model_instance`: one of the three
supported regressor types, carrying its hyperparameter mapping. -/
inductive ModelInstance where
  | RandomForestRegressor (hyper : List (String × ℚ))
  | XGBRegressor (hyper : List (String × ℚ))
  | LGBMRegressor (hyper : List (String × ℚ))
deriving DecidableEq, Repr

/-- `get_model_instance(model_name, params)`: construct the instance for a
supported name, raise `ValueError` otherwise. -/
def get_model_instance (model_name : String) (hyper : List (String × ℚ)) :
    Except String ModelInstance :=
  if model_name = "RandomForestRegressor" then
    Except.ok (ModelInstance.RandomForestRegressor hyper)
  else if model_name = "XGBoostRegressor" then
    Except.ok (ModelInstance.XGBRegressor hyper)
  else if model_name = "LightGBMRegressor" then
    Except.ok (ModelInstance.LGBMRegressor hyper)
  else
    Except.error ("Unsupported model type: " ++ model_name)

/-- The per-model configuration block `models.<name>` from `params.yaml`:
the hyperparameter mapping and the output filename. -/
structure ModelConfig where
  hyper : List (String × ℚ)
  file_name : String
deriving DecidableEq, Repr

/-- A fitted model artifact: the constructed instance plus the training data
it was fitted on (`model.fit(X_train, y_train)` is an opaque library call). -/
structure FittedModel where
  instanceOf : ModelInstance
  X_train : DataFrame
  y_train : DataFrame
deriving DecidableEq, Repr

/-- Result of a `train_model` invocation: the raised error if any, and the
model store (path ↦ fitted artifact) after the call. -/
structure TrainResult where
  raised : Option String
  store : List (String × FittedModel)
deriving DecidableEq, Repr

/-- `train_model` (src/train.py): construct the model instance for
`model_name` with the configured hyperparameters, fit it on the training
partition, and save it under `models/<file_name>`.  When
`get_model_instance` raises, the error propagates before any write, leaving
the store unchanged. -/
def train_model (model_name : String) (model_config : ModelConfig)
    (Xtr ytr : DataFrame) (store : List (String × FittedModel)) : TrainResult :=
  match get_model_instance model_name model_config.hyper with
  | Except.error e => ⟨some e, store⟩
  | Except.ok m =>
    ⟨none, ("models/" ++ model_config.file_name, ⟨m, Xtr, ytr⟩) :: store⟩

/-!
Raw data loader (src/preprocess.py, `load_raw_file`).  The pandas readers are
external library calls modelled as oracles supplied by a `FileSystem`; the
loader's own branching, coercions and renaming are embedded from the source.
A pandas frame is abstracted to what the loader inspects and guarantees: its
column names, its index name, and whether the index is datetime-typed. -/

/-- The shape of a pandas frame the loader manipulates: column labels, the
index's name, and whether the index holds datetime values. -/
structure PandasFrame where
  columns : List String
  indexName : Option String
  indexIsDatetime : Bool
deriving DecidableEq, Repr

/-- The three `pd.read_csv` variants `load_raw_file` may call, as oracles: a
semicolon-separated read, a read with `index_col='datetime'` and
`parse_dates=True`, and the automatic-delimiter fallback.  `Except.error`
models a raised parse/IO exception (e.g. a missing file). -/
structure FileSystem where
  readCsvSemicolon : String → Except Unit PandasFrame
  readCsvDatetimeIndexed : String → Except Unit PandasFrame
  readCsvAutoDetect : String → Except Unit PandasFrame

/-- Concatenate Date and Time, parse with `errors='coerce'` (never raises;
malformed rows become missing index entries), promote to the index, and drop
the two source columns. -/
def promoteDateTimeCols (df : PandasFrame) : PandasFrame :=
  ⟨df.columns.filter (fun c => c ≠ "Date" ∧ c ≠ "Time"), some "datetime", true⟩

/-- Parse an existing `datetime` column with `errors='coerce'` and promote it
to the index. -/
def promoteDatetimeColumn (df : PandasFrame) : PandasFrame :=
  ⟨df.columns.filter (fun c => c ≠ "datetime"), some "datetime", true⟩

/-- `df.index = pd.to_datetime(df.index, errors='coerce')`: coercion never
raises; unparseable entries become missing (NaT), the result is
datetime-typed either way. -/
def coerceIndexToDatetime (df : PandasFrame) : PandasFrame :=
  ⟨df.columns, df.indexName, true⟩

/-- `input_path.endswith('.txt')`: suffix test on the character sequence. -/
def strEndsWith (s suffix : String) : Bool :=
  suffix.data.isSuffixOf s.data

/-- The loader's final two statements: coerce the index to datetime when it
is not datetime-typed already, and name the index `datetime`. -/
def finalizeFrame (df : PandasFrame) : PandasFrame :=
  let ensured := if df.indexIsDatetime then df else coerceIndexToDatetime df
  ⟨ensured.columns, some "datetime", ensured.indexIsDatetime⟩

/-- `load_raw_file` (src/preprocess.py): robust load of the raw dataset.
Tries the layout suggested by the path; on a raised read error falls back to
automatic delimiter detection (whose own failure propagates to the caller);
finally coerces the index to datetime if needed and names it `datetime`. -/
def load_raw_file (fs : FileSystem) (input_path : String) :
    Except Unit PandasFrame :=
  let primary : Except Unit PandasFrame :=
    if strEndsWith input_path ".txt" then
      (fs.readCsvSemicolon input_path).map (fun df =>
        if "Date" ∈ df.columns ∧ "Time" ∈ df.columns then promoteDateTimeCols df
        else if "datetime" ∈ df.columns then promoteDatetimeColumn df
        else coerceIndexToDatetime df)
    else
      fs.readCsvDatetimeIndexed input_path
  let loaded : Except Unit PandasFrame :=
    match primary with
    | Except.ok df => Except.ok df
    | Except.error _ =>
      (fs.readCsvAutoDetect input_path).map (fun df =>
        if "Date" ∈ df.columns ∧ "Time" ∈ df.columns then promoteDateTimeCols df
        else df)
  loaded.map finalizeFrame

/-!
Concrete inputs used by witnesses and counterexamples. -/

/-- A timestamp at linear instant `n` (calendar components fixed). -/
def tsAt (n : Int) : Timestamp := ⟨n, 0, 0, 1, 2020⟩

/-- Configuration: target column `p`, features `[p]`, split fraction 1/2. -/
def psHalf : Params := ⟨"p", ["p"], mkRat 1 2⟩

/-- Raw table with rows at four consecutive timestamps and one numeric
feature column `p` (the spec scenario). -/
def rawFour : RawFrame :=
  ⟨["p"],
   [(tsAt 0, [RawCell.num 10]), (tsAt 1, [RawCell.num 20]),
    (tsAt 2, [RawCell.num 30]), (tsAt 3, [RawCell.num 40])]⟩

/-- Raw table with two rows: only one usable row remains after lagging. -/
def rawTwo : RawFrame :=
  ⟨["p"], [(tsAt 0, [RawCell.num 10]), (tsAt 1, [RawCell.num 20])]⟩

/-- Raw table whose datetime index is out of order ([1, 3, 2]). -/
def rawOutOfOrder : RawFrame :=
  ⟨["p"],
   [(tsAt 1, [RawCell.num 10]), (tsAt 3, [RawCell.num 20]),
    (tsAt 2, [RawCell.num 30])]⟩

/-- Raw table whose datetime index is strictly decreasing ([2, 1]). -/
def rawBackwards : RawFrame :=
  ⟨["p"], [(tsAt 2, [RawCell.num 1]), (tsAt 1, [RawCell.num 2])]⟩

/-- A filesystem on which every read raises (e.g. the input path does not
exist): both the primary and the fallback `pd.read_csv` fail. -/
def fsAllFail : FileSystem :=
  ⟨fun _ => Except.error (), fun _ => Except.error (), fun _ => Except.error ()⟩

/-- A filesystem whose standard CSV read succeeds, returning a frame with a
raw (not yet datetime-typed, unnamed) index. -/
def fsOkStd : FileSystem :=
  ⟨fun _ => Except.error (),
   fun _ => Except.ok ⟨["p"], none, false⟩,
   fun _ => Except.error ()⟩

/-- A model configuration block with one hyperparameter. -/
def cfgOne : ModelConfig := ⟨[("n_estimators", 100)], "model.joblib"⟩

/-- The empty training frame (contents are irrelevant to dispatch). -/
def dfEmpty : DataFrame := ⟨[], []⟩

/-- Rectangularity of a raw frame: every row has one cell per column name
(pandas frames are rectangular by construction). -/
@[reducible] def RawFrame.Rect (raw : RawFrame) : Prop :=
  ∀ r ∈ raw.rows, r.2.length = raw.colNames.length

/-- The timestamps (linear instants) of a row list, in order. -/
def timesOf (l : List (Timestamp × α)) : List Int :=
  l.map (fun r => r.1.time)

/-- A small already-clean two-row frame with one column `p`. -/
def dfTwo : DataFrame := ⟨["p"], [(tsAt 0, [some 10]), (tsAt 1, [some 20])]⟩

/-!
Helper lemmas. -/

theorem pySliceToNeg_eq_take (l : List α) (k : Int) :
    pySliceToNeg l k = l.take (sliceSplitPoint l.length k) := by
  unfold pySliceToNeg sliceSplitPoint
  split
  · rfl
  · split
    · simp
    · rfl

theorem pySliceFromNeg_eq_drop (l : List α) (k : Int) :
    pySliceFromNeg l k = l.drop (sliceSplitPoint l.length k) := by
  unfold pySliceFromNeg sliceSplitPoint
  split
  · rfl
  · split
    · simp
    · rfl

theorem pySliceToNeg_append_pySliceFromNeg (l : List α) (k : Int) :
    pySliceToNeg l k ++ pySliceFromNeg l k = l := by
  rw [pySliceToNeg_eq_take, pySliceFromNeg_eq_drop, List.take_append_drop]

theorem divInt_mul_cast (n : Nat) (frac : ℚ) :
    Rat.divInt ((n : Int) * frac.num) (frac.den : Int) = (n : ℚ) * frac := by
  rw [Rat.divInt_eq_div]
  push_cast
  rw [mul_div_assoc, Rat.num_div_den]

theorem testSize_eq_pyInt_mul (n : Nat) (frac : ℚ) :
    testSize n frac = pyInt ((n : ℚ) * frac) := by
  unfold testSize
  rw [divInt_mul_cast]

theorem pyInt_eq_floor (q : ℚ) (h : 0 ≤ q) : pyInt q = Int.floor q := by
  unfold pyInt
  rw [Rat.floor_def]
  exact Int.tdiv_eq_ediv (Rat.num_nonneg.mpr h) (Int.ofNat_nonneg _)

theorem testSize_eq_floor (n : Nat) (frac : ℚ) (h : 0 ≤ frac) :
    testSize n frac = Int.floor ((n : ℚ) * frac) := by
  rw [testSize_eq_pyInt_mul]
  exact pyInt_eq_floor _ (mul_nonneg (Nat.cast_nonneg n) h)

theorem testSize_nonneg (n : Nat) (frac : ℚ) (h : 0 ≤ frac) :
    0 ≤ testSize n frac := by
  rw [testSize_eq_floor n frac h]
  exact Int.floor_nonneg.mpr (mul_nonneg (Nat.cast_nonneg n) h)

theorem testSize_lt (n : Nat) (frac : ℚ) (h0 : 0 ≤ frac) (h1 : frac < 1)
    (hn : 0 < n) : testSize n frac < n := by
  rw [testSize_eq_floor n frac h0]
  rw [Int.floor_lt]
  push_cast
  calc (n : ℚ) * frac < (n : ℚ) * 1 := by
        exact mul_lt_mul_of_pos_left h1 (by exact_mod_cast hn)
    _ = n := mul_one _

theorem ffillAux_map_fst (prev : List (Option ℚ))
    (rows : List (Timestamp × List (Option ℚ))) :
    (ffillAux prev rows).map Prod.fst = rows.map Prod.fst := by
  induction rows generalizing prev with
  | nil => rfl
  | cons r rest ih => simp [ffillAux, ih]

theorem cleanData_map_fst (raw : RawFrame) :
    (cleanData raw).rows.map Prod.fst = raw.rows.map Prod.fst := by
  unfold cleanData
  rw [ffillAux_map_fst]
  simp

theorem setColumn_map_fst (df : DataFrame) (name : String) (f : Timestamp → ℚ) :
    (setColumn df name f).rows.map Prod.fst = df.rows.map Prod.fst := by
  unfold setColumn
  split <;> simp

theorem addCalendar_map_fst (df : DataFrame) :
    (addCalendar df).rows.map Prod.fst = df.rows.map Prod.fst := by
  unfold addCalendar
  rw [setColumn_map_fst, setColumn_map_fst, setColumn_map_fst, setColumn_map_fst]

theorem selectCols_map_fst (df : DataFrame) (sel : List String) :
    (selectCols df sel).rows.map Prod.fst = df.rows.map Prod.fst := by
  simp [selectCols]

theorem dropCol_map_fst (df : DataFrame) (name : String) :
    (dropCol df name).rows.map Prod.fst = df.rows.map Prod.fst := by
  simp [dropCol]

theorem zipWith_map_fst {β γ : Type} {δ : Type} (g : (Timestamp × β) → γ → δ)
    (l : List (Timestamp × β)) (vs : List γ) (h : l.length ≤ vs.length) :
    (List.zipWith (fun r v => (r.1, g r v)) l vs).map Prod.fst = l.map Prod.fst := by
  induction l generalizing vs with
  | nil => rfl
  | cons a l ih =>
    cases vs with
    | nil => simp at h
    | cons v vs =>
      simp only [List.zipWith, List.map]
      rw [ih vs (by simpa using h)]

theorem create_lagged_map_fst (df : DataFrame) (lag : Nat) :
    (create_lagged_features df lag).rows.map Prod.fst = df.rows.map Prod.fst := by
  unfold create_lagged_features
  exact zipWith_map_fst _ _ _ (by simp)

theorem setColumn_rows_length (df : DataFrame) (name : String) (f : Timestamp → ℚ) :
    (setColumn df name f).rows.length = df.rows.length := by
  unfold setColumn
  split <;> simp

theorem addCalendar_rows_length (df : DataFrame) :
    (addCalendar df).rows.length = df.rows.length := by
  unfold addCalendar
  rw [setColumn_rows_length, setColumn_rows_length, setColumn_rows_length,
    setColumn_rows_length]

theorem selectCols_rows_length (df : DataFrame) (sel : List String) :
    (selectCols df sel).rows.length = df.rows.length := by
  simp [selectCols]

theorem dropCol_rows_length (df : DataFrame) (name : String) :
    (dropCol df name).rows.length = df.rows.length := by
  simp [dropCol]

theorem create_lagged_rows_length (df : DataFrame) (lag : Nat) :
    (create_lagged_features df lag).rows.length = df.rows.length := by
  simp [create_lagged_features]

theorem timesOf_congr {β γ : Type} {l₁ : List (Timestamp × β)}
    {l₂ : List (Timestamp × γ)}
    (h : l₁.map Prod.fst = l₂.map Prod.fst) : timesOf l₁ = timesOf l₂ := by
  have e1 : timesOf l₁ = (l₁.map Prod.fst).map Timestamp.time := by
    rw [List.map_map]; rfl
  have e2 : timesOf l₂ = (l₂.map Prod.fst).map Timestamp.time := by
    rw [List.map_map]; rfl
  rw [e1, e2, h]

theorem timesOf_take (l : List (Timestamp × α)) (m : Nat) :
    timesOf (l.take m) = (timesOf l).take m := by
  unfold timesOf
  rw [List.map_take]

theorem timesOf_drop (l : List (Timestamp × α)) (m : Nat) :
    timesOf (l.drop m) = (timesOf l).drop m := by
  unfold timesOf
  rw [List.map_drop]

theorem pipelineTable_map_fst (raw : RawFrame) :
    (pipelineTable raw).rows.map Prod.fst = raw.rows.map Prod.fst := by
  unfold pipelineTable
  rw [addCalendar_map_fst, cleanData_map_fst]

theorem fullTable_timesOf_sublist (raw : RawFrame) (ps : Params) :
    List.Sublist (timesOf (fullTable raw ps).rows) (timesOf raw.rows) := by
  unfold fullTable dropna
  have hlen : (selectCols (pipelineTable raw) [ps.target_column]).rows.length ≤
      (create_lagged_features (selectCols (pipelineTable raw) ps.features) 1).rows.length := by
    rw [selectCols_rows_length, create_lagged_rows_length, selectCols_rows_length]
  have hcat : (concatCols (selectCols (pipelineTable raw) [ps.target_column])
        (create_lagged_features (selectCols (pipelineTable raw) ps.features) 1)).rows.map
          Prod.fst = raw.rows.map Prod.fst := by
    unfold concatCols
    rw [zipWith_map_fst _ _ _ hlen, selectCols_map_fst, pipelineTable_map_fst]
  have hsub : List.Sublist
      (timesOf ((concatCols (selectCols (pipelineTable raw) [ps.target_column])
        (create_lagged_features (selectCols (pipelineTable raw) ps.features) 1)).rows.filter
          (fun r => r.2.all Option.isSome)))
      (timesOf (concatCols (selectCols (pipelineTable raw) [ps.target_column])
        (create_lagged_features (selectCols (pipelineTable raw) ps.features) 1)).rows) :=
    List.Sublist.map _ (List.filter_sublist _)
  rw [timesOf_congr hcat] at hsub
  exact hsub

theorem pairwise_take_drop {α : Type} {R : α → α → Prop} {l : List α}
    (h : l.Pairwise R) (m : Nat) :
    ∀ b ∈ l.take m, ∀ a ∈ l.drop m, R b a := by
  have hsplit : (l.take m ++ l.drop m).Pairwise R := by
    rw [List.take_append_drop]; exact h
  exact (List.pairwise_append.mp hsplit).2.2

theorem testSize_zero (frac : ℚ) : testSize 0 frac = 0 := by
  simp [testSize, pyInt, Rat.zero_divInt]

theorem preprocess_data_rows (raw : RawFrame) (ps : Params) :
    (preprocess_data raw ps).X_train.rows
        = (dropCol (fullTable raw ps) ps.target_column).rows.take
            (sliceSplitPoint (fullTable raw ps).rows.length
              (testSize (fullTable raw ps).rows.length ps.split_fraction)) ∧
    (preprocess_data raw ps).X_test.rows
        = (dropCol (fullTable raw ps) ps.target_column).rows.drop
            (sliceSplitPoint (fullTable raw ps).rows.length
              (testSize (fullTable raw ps).rows.length ps.split_fraction)) ∧
    (preprocess_data raw ps).y_train.rows
        = (selectCols (fullTable raw ps) [ps.target_column]).rows.take
            (sliceSplitPoint (fullTable raw ps).rows.length
              (testSize (fullTable raw ps).rows.length ps.split_fraction)) ∧
    (preprocess_data raw ps).y_test.rows
        = (selectCols (fullTable raw ps) [ps.target_column]).rows.drop
            (sliceSplitPoint (fullTable raw ps).rows.length
              (testSize (fullTable raw ps).rows.length ps.split_fraction)) := by
  unfold preprocess_data
  refine ⟨?_, ?_, ?_, ?_⟩ <;>
    simp only [pySliceToNeg_eq_take, pySliceFromNeg_eq_drop, dropCol_rows_length,
      selectCols_rows_length]

theorem partition_times_lt (raw : RawFrame) (ps : Params)
    (h : List.Pairwise (fun a b : Int => a < b) (timesOf raw.rows))
    (df : DataFrame)
    (hfst : df.rows.map Prod.fst = (fullTable raw ps).rows.map Prod.fst) (m : Nat) :
    ∀ a ∈ df.rows.drop m, ∀ b ∈ df.rows.take m, b.1.time < a.1.time := by
  have hP : List.Pairwise (fun a b : Int => a < b) (timesOf df.rows) := by
    rw [timesOf_congr hfst]
    exact List.Pairwise.sublist (fullTable_timesOf_sublist raw ps) h
  intro a ha b hb
  have hb2 : b.1.time ∈ (timesOf df.rows).take m := by
    have hmem : b.1.time ∈ timesOf (df.rows.take m) := List.mem_map_of_mem _ hb
    rwa [timesOf_take] at hmem
  have ha2 : a.1.time ∈ (timesOf df.rows).drop m := by
    have hmem : a.1.time ∈ timesOf (df.rows.drop m) := List.mem_map_of_mem _ ha
    rwa [timesOf_drop] at hmem
  exact pairwise_take_drop hP m _ hb2 _ ha2

/-!
Claim theorems. -/

/-- C2, counterexample: in the spec scenario (four consecutive timestamps,
one feature column `p`, ratio 0.5) the code does NOT produce
train = [T+1] and test = [T+2, T+3]: `test_size = int(3 * 0.5) = 1`, so the
test partition is the single last row. -/
theorem C2_counterexample :
    ¬ ((preprocess_data rawFour psHalf).X_train.rows.map (fun r => r.1.time) = [1] ∧
       (preprocess_data rawFour psHalf).X_test.rows.map (fun r => r.1.time) = [2, 3]) := by
  decide

/-- C2 (amended): in the spec scenario 3 usable rows remain after lagging and
dropna (the row at T is dropped because its lag is undefined), and with
`test_size = int(3 * 0.5) = 1` the split yields train = [T+1, T+2] and
test = [T+3], for both the feature and target partitions. -/
theorem C2_scenario_split :
    (fullTable rawFour psHalf).rows.length = 3 ∧
    timesOf (fullTable rawFour psHalf).rows = [1, 2, 3] ∧
    (preprocess_data rawFour psHalf).X_train.rows.map (fun r => r.1.time) = [1, 2] ∧
    (preprocess_data rawFour psHalf).X_test.rows.map (fun r => r.1.time) = [3] ∧
    (preprocess_data rawFour psHalf).y_train.rows.map (fun r => r.1.time) = [1, 2] ∧
    (preprocess_data rawFour psHalf).y_test.rows.map (fun r => r.1.time) = [3] := by
  decide

/-- C10: when `test_size = int(n * ratio)` is 0, the slice `[:-0]` is empty
and `[-0:]` is the whole table, so the train partitions are empty and the
test partitions are the entire post-drop dataset. -/
theorem C10_degenerate_split (raw : RawFrame) (ps : Params)
    (h : testSize (fullTable raw ps).rows.length ps.split_fraction = 0) :
    (preprocess_data raw ps).X_train.rows = [] ∧
    (preprocess_data raw ps).y_train.rows = [] ∧
    (preprocess_data raw ps).X_test.rows
      = (dropCol (fullTable raw ps) ps.target_column).rows ∧
    (preprocess_data raw ps).y_test.rows
      = (selectCols (fullTable raw ps) [ps.target_column]).rows := by
  obtain ⟨e1, e2, e3, e4⟩ := preprocess_data_rows raw ps
  rw [h] at e1 e2 e3 e4
  have hsp : sliceSplitPoint (fullTable raw ps).rows.length 0 = 0 := by
    unfold sliceSplitPoint
    norm_num
  rw [hsp] at e1 e2 e3 e4
  simp only [List.take_zero, List.drop_zero] at e1 e2 e3 e4
  exact ⟨e1, e3, e2, e4⟩

/-- Witness for C10: a two-row table at ratio 1/2 leaves one post-drop row,
`test_size = int(1 * 0.5) = 0`, the train partition is empty and the test
partition is the whole post-drop dataset. -/
theorem C10_degenerate_split_witness :
    testSize (fullTable rawTwo psHalf).rows.length psHalf.split_fraction = 0 ∧
    (preprocess_data rawTwo psHalf).X_train.rows = [] ∧
    (preprocess_data rawTwo psHalf).X_test.rows
      = (dropCol (fullTable rawTwo psHalf) psHalf.target_column).rows := by
  refine ⟨by decide, ?_, ?_⟩
  · exact (C10_degenerate_split rawTwo psHalf (by decide)).1
  · exact (C10_degenerate_split rawTwo psHalf (by decide)).2.2.1

/-- C5, counterexample: the cleaning step never sorts: on a raw table whose
datetime index is strictly decreasing the cleaned index is not strictly
sorted ascending. -/
theorem C5_counterexample :
    ¬ List.Pairwise (fun a b : Int => a < b) (timesOf (cleanData rawBackwards).rows) := by
  decide

/-- C5 (amended): the cleaning step (numeric coercion + forward fill) leaves
the index unchanged, so the cleaned index is strictly sorted and free of
duplicates exactly when the raw index already is: under a strictly
increasing raw index, the cleaned index is strictly sorted and has no
duplicate timestamps. -/
theorem C5_clean_preserves_index (raw : RawFrame)
    (h : List.Pairwise (fun a b : Int => a < b) (timesOf raw.rows)) :
    (cleanData raw).rows.map Prod.fst = raw.rows.map Prod.fst ∧
    List.Pairwise (fun a b : Int => a < b) (timesOf (cleanData raw).rows) ∧
    (timesOf (cleanData raw).rows).Nodup := by
  have hidx := cleanData_map_fst raw
  have ht : timesOf (cleanData raw).rows = timesOf raw.rows := timesOf_congr hidx
  refine ⟨hidx, ?_, ?_⟩
  · rw [ht]; exact h
  · rw [ht]
    exact List.Pairwise.imp (fun hlt => Int.ne_of_lt hlt) h

/-- Witness for C5 (amended), on the four-row strictly increasing table. -/
theorem C5_clean_preserves_index_witness :
    (cleanData rawFour).rows.map Prod.fst = rawFour.rows.map Prod.fst ∧
    List.Pairwise (fun a b : Int => a < b) (timesOf (cleanData rawFour).rows) ∧
    (timesOf (cleanData rawFour).rows).Nodup :=
  C5_clean_preserves_index rawFour (by decide)

/-- C4, counterexample: the split is positional, not temporal: on a raw
table whose datetime index is out of order, a test-partition timestamp is
not greater than every train-partition timestamp. -/
theorem C4_counterexample :
    ¬ (∀ a ∈ (preprocess_data rawOutOfOrder psHalf).X_test.rows,
        ∀ b ∈ (preprocess_data rawOutOfOrder psHalf).X_train.rows,
          b.1.time < a.1.time) := by
  decide

/-- C4 (amended): for every input table whose datetime index is strictly
increasing, every timestamp in the test partition is strictly greater than
every timestamp in the train partition, for both the feature and the target
partitions (positional split of a sorted index, no shuffling). -/
theorem C4_chronological (raw : RawFrame) (ps : Params)
    (h : List.Pairwise (fun a b : Int => a < b) (timesOf raw.rows)) :
    (∀ a ∈ (preprocess_data raw ps).X_test.rows,
      ∀ b ∈ (preprocess_data raw ps).X_train.rows, b.1.time < a.1.time) ∧
    (∀ a ∈ (preprocess_data raw ps).y_test.rows,
      ∀ b ∈ (preprocess_data raw ps).y_train.rows, b.1.time < a.1.time) := by
  obtain ⟨e1, e2, e3, e4⟩ := preprocess_data_rows raw ps
  constructor
  · rw [e1, e2]
    exact partition_times_lt raw ps h _ (dropCol_map_fst _ _) _
  · rw [e3, e4]
    exact partition_times_lt raw ps h _ (selectCols_map_fst _ _) _

/-- Witness for C4 (amended), on the four-row strictly increasing table: the
test row at instant 3 postdates the train row at instant 1. -/
theorem C4_chronological_witness :
    (tsAt 3, [some (30 : ℚ)]) ∈ (preprocess_data rawFour psHalf).X_test.rows ∧
    (tsAt 1, [some (10 : ℚ)]) ∈ (preprocess_data rawFour psHalf).X_train.rows ∧
    (tsAt 1).time < (tsAt 3).time :=
  ⟨by decide, by decide,
    (C4_chronological rawFour psHalf (by decide)).1
      (tsAt 3, [some (30 : ℚ)]) (by decide) (tsAt 1, [some (10 : ℚ)]) (by decide)⟩

/-- C1, counterexample: with ratio 1/2 ∈ (0,1) and a single post-drop row,
`floor(1 * 0.5) = 0` but the test partition holds the whole table (1 row),
because the slice `[-0:]` is the entire list. -/
theorem C1_counterexample :
    0 < psHalf.split_fraction ∧ psHalf.split_fraction < 1 ∧
    (fullTable rawTwo psHalf).rows.length = 1 ∧
    Int.floor (((fullTable rawTwo psHalf).rows.length : ℚ) * psHalf.split_fraction)
      = 0 ∧
    (preprocess_data rawTwo psHalf).X_test.rows.length = 1 := by
  refine ⟨by decide, by decide, by decide, ?_, by decide⟩
  rw [← testSize_eq_floor _ _ (by decide)]
  decide

/-- C1 (amended): for every input table and ratio in (0,1), whenever the
computed `test_size = floor(n * ratio)` is at least 1 (with n the post-drop
row count), the test partitions hold exactly `floor(n * ratio)` rows, the
last `test_size` rows form the test set and all preceding rows form the
train set; when `test_size = 0` the split degenerates as in C10. -/
theorem C1_split_sizes (raw : RawFrame) (ps : Params)
    (h0 : 0 < ps.split_fraction) (h1 : ps.split_fraction < 1)
    (hk : 1 ≤ testSize (fullTable raw ps).rows.length ps.split_fraction) :
    ((preprocess_data raw ps).X_test.rows.length : Int)
        = Int.floor (((fullTable raw ps).rows.length : ℚ) * ps.split_fraction) ∧
    ((preprocess_data raw ps).y_test.rows.length : Int)
        = Int.floor (((fullTable raw ps).rows.length : ℚ) * ps.split_fraction) ∧
    (preprocess_data raw ps).X_train.rows
        = (dropCol (fullTable raw ps) ps.target_column).rows.take
            ((fullTable raw ps).rows.length
              - (testSize (fullTable raw ps).rows.length ps.split_fraction).toNat) ∧
    (preprocess_data raw ps).X_test.rows
        = (dropCol (fullTable raw ps) ps.target_column).rows.drop
            ((fullTable raw ps).rows.length
              - (testSize (fullTable raw ps).rows.length ps.split_fraction).toNat) ∧
    (preprocess_data raw ps).y_train.rows
        = (selectCols (fullTable raw ps) [ps.target_column]).rows.take
            ((fullTable raw ps).rows.length
              - (testSize (fullTable raw ps).rows.length ps.split_fraction).toNat) ∧
    (preprocess_data raw ps).y_test.rows
        = (selectCols (fullTable raw ps) [ps.target_column]).rows.drop
            ((fullTable raw ps).rows.length
              - (testSize (fullTable raw ps).rows.length ps.split_fraction).toNat) := by
  obtain ⟨e1, e2, e3, e4⟩ := preprocess_data_rows raw ps
  have hn : 0 < (fullTable raw ps).rows.length := by
    by_contra hc
    push_neg at hc
    have h0len : (fullTable raw ps).rows.length = 0 := by omega
    rw [h0len, testSize_zero] at hk
    omega
  have hlt := testSize_lt (fullTable raw ps).rows.length ps.split_fraction
    h0.le h1 hn
  have hsp : sliceSplitPoint (fullTable raw ps).rows.length
      (testSize (fullTable raw ps).rows.length ps.split_fraction)
      = (fullTable raw ps).rows.length
        - (testSize (fullTable raw ps).rows.length ps.split_fraction).toNat := by
    unfold sliceSplitPoint
    rw [if_pos (by omega)]
  rw [hsp] at e1 e2 e3 e4
  have hfloor := testSize_eq_floor (fullTable raw ps).rows.length
    ps.split_fraction h0.le
  refine ⟨?_, ?_, e1, e2, e3, e4⟩
  · rw [e2, List.length_drop, dropCol_rows_length, ← hfloor]
    omega
  · rw [e4, List.length_drop, selectCols_rows_length, ← hfloor]
    omega

/-- Witness for C1 (amended): the four-row scenario table, where
`test_size = int(3 * 0.5) = 1`. -/
theorem C1_split_sizes_witness :
    1 ≤ testSize (fullTable rawFour psHalf).rows.length psHalf.split_fraction ∧
    ((preprocess_data rawFour psHalf).X_test.rows.length : Int)
      = Int.floor (((fullTable rawFour psHalf).rows.length : ℚ)
          * psHalf.split_fraction) :=
  ⟨by decide, (C1_split_sizes rawFour psHalf (by decide) (by decide) (by decide)).1⟩

theorem fullTable_colNames (raw : RawFrame) (ps : Params) :
    (fullTable raw ps).colNames
      = ps.target_column :: ps.features.map (fun c => c ++ "_lag1") := by
  unfold fullTable dropna concatCols selectCols create_lagged_features
  have hfun : (fun col : String => col ++ ("_lag" ++ toString 1))
      = fun c : String => c ++ "_lag1" := by
    funext c
    rfl
  simp [hfun]

theorem filter_ne_cons_self (l : List String) (t : String) (h : t ∉ l) :
    (t :: l).filter (fun c => c ≠ t) = l := by
  rw [List.filter_cons]
  simp only [ne_eq, not_true_eq_false, decide_False, Bool.false_eq_true, if_false]
  apply List.filter_eq_self.mpr
  intro b hb
  simp only [ne_eq, decide_eq_true_eq]
  intro heq
  exact h (heq ▸ hb)

/-- C6, counterexample: the persisted feature matrix X does NOT contain the
configured feature columns nor the calendar columns themselves — only the
lagged versions survive: with features `[p]` the persisted X has exactly
the column `p_lag1`, and neither `p` nor `hour_of_day` appears. -/
theorem C6_counterexample :
    "hour_of_day" ∉ (preprocess_data rawFour psHalf).X_train.colNames ∧
    "p" ∉ (preprocess_data rawFour psHalf).X_train.colNames ∧
    (preprocess_data rawFour psHalf).X_train.colNames = ["p_lag1"] := by
  decide

/-- C6 (amended): the persisted feature matrix X contains exactly the
one-step-lagged versions of the configured feature columns, each named by
suffixing the original column name with the lag marker `_lag1`; the four
calendar-derived columns are added to the working table before feature
selection and reach X (in lagged form) only when listed among the
configured features. -/
theorem C6_X_lagged_columns (raw : RawFrame) (ps : Params)
    (h : ps.target_column ∉ ps.features.map (fun c => c ++ "_lag1")) :
    (preprocess_data raw ps).X_train.colNames
        = ps.features.map (fun c => c ++ "_lag1") ∧
    (preprocess_data raw ps).X_test.colNames
        = ps.features.map (fun c => c ++ "_lag1") := by
  have key : (dropCol (fullTable raw ps) ps.target_column).colNames
      = ps.features.map (fun c => c ++ "_lag1") := by
    unfold dropCol
    rw [fullTable_colNames]
    exact filter_ne_cons_self _ _ h
  exact ⟨key, key⟩

/-- Witness for C6 (amended): with target `p` and features `[p]`, the
persisted X columns are exactly `[p_lag1]`. -/
theorem C6_X_lagged_columns_witness :
    (preprocess_data rawFour psHalf).X_train.colNames
      = psHalf.features.map (fun c => c ++ "_lag1") :=
  (C6_X_lagged_columns rawFour psHalf (by decide)).1

/-- C9: for every model-type name outside the closed set
{RandomForestRegressor, XGBoostRegressor, LightGBMRegressor}, training
raises the explicit unsupported-model-type error and the model store is
unchanged (the error is raised before any write); for each name inside the
set, the corresponding model instance is constructed with the given
hyperparameters, fitted, and stored under `models/<file_name>`. -/
theorem C9_model_dispatch (model_name : String) (cfg : ModelConfig)
    (Xtr ytr : DataFrame) (store : List (String × FittedModel)) :
    ((model_name ≠ "RandomForestRegressor" ∧ model_name ≠ "XGBoostRegressor" ∧
        model_name ≠ "LightGBMRegressor") →
      train_model model_name cfg Xtr ytr store
        = ⟨some ("Unsupported model type: " ++ model_name), store⟩) ∧
    train_model "RandomForestRegressor" cfg Xtr ytr store
      = ⟨none, ("models/" ++ cfg.file_name,
          ⟨ModelInstance.RandomForestRegressor cfg.hyper, Xtr, ytr⟩) :: store⟩ ∧
    train_model "XGBoostRegressor" cfg Xtr ytr store
      = ⟨none, ("models/" ++ cfg.file_name,
          ⟨ModelInstance.XGBRegressor cfg.hyper, Xtr, ytr⟩) :: store⟩ ∧
    train_model "LightGBMRegressor" cfg Xtr ytr store
      = ⟨none, ("models/" ++ cfg.file_name,
          ⟨ModelInstance.LGBMRegressor cfg.hyper, Xtr, ytr⟩) :: store⟩ := by
  refine ⟨?_, ?_, ?_, ?_⟩
  · rintro ⟨h1, h2, h3⟩
    unfold train_model get_model_instance
    rw [if_neg h1, if_neg h2, if_neg h3]
  · unfold train_model get_model_instance
    rw [if_pos rfl]
  · unfold train_model get_model_instance
    rw [if_neg (by decide), if_pos rfl]
  · unfold train_model get_model_instance
    rw [if_neg (by decide), if_neg (by decide), if_pos rfl]

/-- Witness for C9: the unsupported name `LinearRegression` raises the
explicit error and leaves the model store unchanged. -/
theorem C9_model_dispatch_witness :
    train_model "LinearRegression" cfgOne dfEmpty dfEmpty []
      = ⟨some ("Unsupported model type: " ++ "LinearRegression"), []⟩ :=
  (C9_model_dispatch "LinearRegression" cfgOne dfEmpty dfEmpty []).1
    ⟨by decide, by decide, by decide⟩

theorem finalizeFrame_spec (d : PandasFrame) :
    (finalizeFrame d).indexName = some "datetime" ∧
    (finalizeFrame d).indexIsDatetime = true := by
  unfold finalizeFrame
  refine ⟨rfl, ?_⟩
  by_cases hb : d.indexIsDatetime = true <;> simp [coerceIndexToDatetime, hb]

theorem except_map_ok {α β : Type} (f : α → β) (e : Except Unit α) (b : β)
    (h : Except.map f e = Except.ok b) : ∃ a, e = Except.ok a ∧ b = f a := by
  cases e with
  | ok a => exact ⟨a, rfl, by simpa [Except.map] using h.symm⟩
  | error u => simp [Except.map] at h

theorem except_map_error {α β : Type} (f : α → β) (e : Except Unit α)
    (h : Except.map f e = Except.error ()) : e = Except.error () := by
  cases e with
  | ok a => simp [Except.map] at h
  | error u => rfl

/-- C8, counterexample: the loader CAN raise to its caller: when both the
primary read and the automatic-delimiter fallback read fail (e.g. the input
path does not exist), the exception from the fallback propagates. -/
theorem C8_counterexample :
    load_raw_file fsAllFail "data/raw/household_power_consumption.txt"
      = Except.error () := by
  rfl

/-- C8 (amended): the loader propagates a read exception exactly when the
path-appropriate primary read and the fallback read both fail; whenever it
returns a table, that table's index is named `datetime` and is
datetime-typed (malformed rows become missing index entries rather than
raising, since all datetime coercions use `errors='coerce'`). -/
theorem C8_loader_contract (fs : FileSystem) (input_path : String) :
    (∀ df, load_raw_file fs input_path = Except.ok df →
      df.indexName = some "datetime" ∧ df.indexIsDatetime = true) ∧
    (load_raw_file fs input_path = Except.error () →
      fs.readCsvAutoDetect input_path = Except.error () ∧
      (strEndsWith input_path ".txt" = true →
        fs.readCsvSemicolon input_path = Except.error ()) ∧
      (strEndsWith input_path ".txt" = false →
        fs.readCsvDatetimeIndexed input_path = Except.error ())) := by
  constructor
  · intro df hdf
    unfold load_raw_file at hdf
    obtain ⟨a, _, rfl⟩ := except_map_ok _ _ _ hdf
    exact finalizeFrame_spec a
  · intro herr
    unfold load_raw_file at herr
    have hL := except_map_error _ _ herr
    cases hE : strEndsWith input_path ".txt" with
    | true =>
      rw [hE] at hL
      simp only [if_true] at hL
      cases hS : fs.readCsvSemicolon input_path with
      | ok d =>
        rw [hS] at hL
        simp [Except.map] at hL
      | error u =>
        rw [hS] at hL
        simp only [Except.map] at hL
        cases hA : fs.readCsvAutoDetect input_path with
        | ok d2 =>
          rw [hA] at hL
          simp [Except.map] at hL
        | error u2 =>
          cases u; cases u2
          exact ⟨rfl, fun _ => rfl, fun hcon => by simp [hE] at hcon⟩
    | false =>
      rw [hE] at hL
      simp only [Bool.false_eq_true, if_false] at hL
      cases hS : fs.readCsvDatetimeIndexed input_path with
      | ok d =>
        rw [hS] at hL
        simp [Except.map] at hL
      | error u =>
        rw [hS] at hL
        simp only [Except.map] at hL
        cases hA : fs.readCsvAutoDetect input_path with
        | ok d2 =>
          rw [hA] at hL
          simp [Except.map] at hL
        | error u2 =>
          cases u; cases u2
          exact ⟨rfl, fun hcon => by simp [hE] at hcon, fun _ => rfl⟩

/-- Witness for C8 (amended): a successful standard read yields a table
whose index is named `datetime` and datetime-typed, and on a filesystem
where every read fails the fallback read is indeed the failing one. -/
theorem C8_loader_contract_witness :
    load_raw_file fsOkStd "a.csv" = Except.ok ⟨["p"], some "datetime", true⟩ ∧
    ((⟨["p"], some "datetime", true⟩ : PandasFrame).indexName = some "datetime" ∧
      (⟨["p"], some "datetime", true⟩ : PandasFrame).indexIsDatetime = true) ∧
    fsAllFail.readCsvAutoDetect "a.csv" = Except.error () :=
  ⟨rfl, (C8_loader_contract fsOkStd "a.csv").1 _ rfl,
    ((C8_loader_contract fsAllFail "a.csv").2 rfl).1⟩

/-- C3: `create_lagged_features` with lag 1 is leakage-free: for every
source table and every row position after the first, the lagged cell at row
`i+1` carries exactly the pre-lag cell of the same column at row `i`; every
cell of the first row of the lagged table is missing (undefined lag). -/
theorem C3_lag_semantics (df : DataFrame) (i j : Nat)
    (h : i + 1 < df.rows.length) (hj : j < df.colNames.length) :
    cellAt (create_lagged_features df 1) (i + 1) j = cellAt df i j ∧
    cellAt (create_lagged_features df 1) 0 j = some none := by
  have hi : i < df.rows.length := by omega
  obtain ⟨r1, hr1⟩ : ∃ r, df.rows[i+1]? = some r :=
    ⟨_, List.getElem?_eq_getElem h⟩
  obtain ⟨r0, hr0⟩ : ∃ r, df.rows[i]? = some r :=
    ⟨_, List.getElem?_eq_getElem hi⟩
  have h0 : 0 < df.rows.length := by omega
  obtain ⟨rz, hrz⟩ : ∃ r, df.rows[0]? = some r :=
    ⟨_, List.getElem?_eq_getElem h0⟩
  constructor
  · unfold cellAt create_lagged_features
    rw [List.getElem?_zipWith]
    have hsecond : (List.replicate 1 (List.replicate df.colNames.length
        (none : Option ℚ)) ++ df.rows.map Prod.snd)[i+1]?
        = some r0.2 := by
      rw [List.getElem?_append_right (by simp)]
      simp [hr0]
    rw [hr1, hsecond, hr0]
    simp
  · unfold cellAt create_lagged_features
    rw [List.getElem?_zipWith]
    have hsecond : (List.replicate 1 (List.replicate df.colNames.length
        (none : Option ℚ)) ++ df.rows.map Prod.snd)[0]?
        = some (List.replicate df.colNames.length none) := by
      rw [List.getElem?_append_left (by simp)]
      simp
    rw [hrz, hsecond]
    simp [hj]

/-- Witness for C3 on a concrete two-row table: row 1 of the lagged table
holds row 0's value, and row 0 of the lagged table is missing. -/
theorem C3_lag_semantics_witness :
    cellAt (create_lagged_features dfTwo 1) 1 0 = cellAt dfTwo 0 0 ∧
    cellAt (create_lagged_features dfTwo 1) 0 0 = some none :=
  C3_lag_semantics dfTwo 0 0 (by decide) (by decide)

theorem lookup_append {α : Type} (l1 l2 : List (String × α)) (s : String) :
    (l1 ++ l2).lookup s
      = ((l1.lookup s).orElse (fun _ => l2.lookup s)) := by
  induction l1 with
  | nil => simp [Option.orElse]
  | cons p l ih =>
    rw [List.cons_append, List.lookup_cons, List.lookup_cons]
    cases hb : s == p.1 with
    | true => simp [Option.orElse]
    | false => simp [ih, Option.orElse]

theorem lookup_zip_overwrite (names : List String) (vals : List (Option ℚ))
    (name tgt : String) (q : ℚ) (hne : tgt ≠ name) :
    (names.zip (List.zipWith
        (fun c v => if c = name then some q else v) names vals)).lookup tgt
      = (names.zip vals).lookup tgt := by
  induction names generalizing vals with
  | nil => rfl
  | cons c cs ih =>
    cases vals with
    | nil => rfl
    | cons v vs =>
      rw [List.zipWith_cons_cons, List.zip_cons_cons, List.zip_cons_cons,
        List.lookup_cons, List.lookup_cons]
      cases hb : tgt == c with
      | true =>
        have hceq : tgt = c := by simpa using hb
        have : ¬ (c = name) := fun hcn => hne (hceq ▸ hcn)
        simp [this]
      | false => exact ih vs

theorem setColumn_getElem (df : DataFrame) (name : String) (f : Timestamp → ℚ)
    (i : Nat) (r : Timestamp × List (Option ℚ)) (hi : df.rows[i]? = some r)
    (hw : r.2.length = df.colNames.length) (tgt : String) (hne : tgt ≠ name) :
    ∃ r2, (setColumn df name f).rows[i]? = some r2 ∧ r2.1 = r.1 ∧
      r2.2.length = (setColumn df name f).colNames.length ∧
      getCell (setColumn df name f).colNames r2.2 tgt
        = getCell df.colNames r.2 tgt := by
  unfold setColumn
  by_cases hmem : name ∈ df.colNames
  · rw [if_pos hmem]
    refine ⟨(r.1, List.zipWith (fun c v => if c = name then some (f r.1) else v)
        df.colNames r.2), ?_, rfl, ?_, ?_⟩
    · simp [hi]
    · simp [hw]
    · show getCell df.colNames
        (List.zipWith (fun c v => if c = name then some (f r.1) else v)
          df.colNames r.2) tgt = getCell df.colNames r.2 tgt
      unfold getCell
      rw [lookup_zip_overwrite _ _ _ _ _ hne]
  · rw [if_neg hmem]
    refine ⟨(r.1, r.2 ++ [some (f r.1)]), ?_, rfl, ?_, ?_⟩
    · simp [hi]
    · simp [hw]
    · show getCell (df.colNames ++ [name]) (r.2 ++ [some (f r.1)]) tgt
        = getCell df.colNames r.2 tgt
      unfold getCell
      rw [List.zip_append hw.symm, lookup_append]
      have hlast : (([name].zip [some (f r.1)]) : List (String × Option ℚ)).lookup tgt
          = none := by
        rw [List.zip_cons_cons, List.zip_nil_right, List.lookup_cons]
        have hb : (tgt == name) = false := by
          simpa using hne
        simp [hb]
      rw [hlast]
      cases hlk : ((df.colNames.zip r.2).lookup tgt) <;> simp [Option.orElse]

theorem addCalendar_getElem (df : DataFrame) (i : Nat)
    (r : Timestamp × List (Option ℚ)) (hi : df.rows[i]? = some r)
    (hw : r.2.length = df.colNames.length) (tgt : String)
    (h1 : tgt ≠ "hour_of_day") (h2 : tgt ≠ "day_of_week")
    (h3 : tgt ≠ "month") (h4 : tgt ≠ "year") :
    ∃ r2, (addCalendar df).rows[i]? = some r2 ∧ r2.1 = r.1 ∧
      getCell (addCalendar df).colNames r2.2 tgt
        = getCell df.colNames r.2 tgt := by
  unfold addCalendar
  obtain ⟨ra, hia, hfa, hwa, hga⟩ :=
    setColumn_getElem df "hour_of_day" (fun t => (t.hour : ℚ)) i r hi hw tgt h1
  obtain ⟨rb, hib, hfb, hwb, hgb⟩ :=
    setColumn_getElem _ "day_of_week" (fun t => (t.dayofweek : ℚ)) i ra hia hwa tgt h2
  obtain ⟨rc, hic, hfc, hwc, hgc⟩ :=
    setColumn_getElem _ "month" (fun t => (t.month : ℚ)) i rb hib hwb tgt h3
  obtain ⟨rd, hid, hfd, hwd, hgd⟩ :=
    setColumn_getElem _ "year" (fun t => (t.year : ℚ)) i rc hic hwc tgt h4
  exact ⟨rd, hid, by rw [hfd, hfc, hfb, hfa], by rw [hgd, hgc, hgb, hga]⟩

theorem ffillStep_length (prev cur : List (Option ℚ)) :
    (ffillStep prev cur).length = min prev.length cur.length := by
  simp [ffillStep]

theorem ffillAux_widths (w : Nat) (prev : List (Option ℚ))
    (rows : List (Timestamp × List (Option ℚ))) (hp : prev.length = w)
    (hr : ∀ r ∈ rows, (r.2 : List (Option ℚ)).length = w) :
    ∀ r ∈ ffillAux prev rows, r.2.length = w := by
  induction rows generalizing prev with
  | nil => intro r hmem; simp [ffillAux] at hmem
  | cons p rest ih =>
    intro r hmem
    obtain ⟨t, v⟩ := p
    rw [ffillAux] at hmem
    have hv : v.length = w := hr (t, v) (by simp)
    have hcur : (ffillStep prev v).length = w := by
      rw [ffillStep_length, hp, hv]
      simp
    rcases List.mem_cons.mp hmem with hhead | htail
    · rw [hhead]
      exact hcur
    · exact ih (ffillStep prev v) hcur (fun r2 hr2 => hr r2 (by simp [hr2])) r htail

theorem cleanData_rect (raw : RawFrame) (h : raw.Rect) :
    ∀ r ∈ (cleanData raw).rows, r.2.length = (cleanData raw).colNames.length := by
  unfold cleanData
  intro r hmem
  refine ffillAux_widths raw.colNames.length _ _ (by simp) ?_ r hmem
  intro r2 hr2
  obtain ⟨r0, hr0, rfl⟩ := List.mem_map.mp hr2
  simpa using h r0 hr0

theorem mem_zipWith {α β γ : Type} {f : α → β → γ} {l1 : List α} {l2 : List β}
    {x : γ} (h : x ∈ List.zipWith f l1 l2) :
    ∃ (i : Nat) (a : α) (b : β), l1[i]? = some a ∧ l2[i]? = some b ∧ x = f a b := by
  induction l1 generalizing l2 with
  | nil => simp at h
  | cons a l ih =>
    cases l2 with
    | nil => simp at h
    | cons b l2 =>
      rw [List.zipWith_cons_cons] at h
      rcases List.mem_cons.mp h with hhead | htail
      · exact ⟨0, a, b, by simp, by simp, hhead⟩
      · obtain ⟨i, a2, b2, h1, h2, h3⟩ := ih htail
        exact ⟨i + 1, a2, b2, by simpa using h1, by simpa using h2, h3⟩

theorem getCell_cons_self (L : List String) (xs : List (Option ℚ))
    (tgt : String) (v : Option ℚ) :
    getCell (tgt :: L) (v :: xs) tgt = v := by
  unfold getCell
  rw [List.zip_cons_cons, List.lookup_cons]
  simp

/-- C7: the target vector is never shifted: every row of the persisted y
partitions carries, at its timestamp, exactly the cleaned (numeric-coerced,
forward-filled) target-column value at that same timestamp, regardless of
the lag applied to the features.  (The target column must not collide with
one of the four calendar column names, which would be overwritten by the
calendar step before the target is separated.) -/
theorem C7_target_unshifted (raw : RawFrame) (ps : Params) (hrect : raw.Rect)
    (h1 : ps.target_column ≠ "hour_of_day") (h2 : ps.target_column ≠ "day_of_week")
    (h3 : ps.target_column ≠ "month") (h4 : ps.target_column ≠ "year") :
    ∀ p ∈ (preprocess_data raw ps).y_train.rows
        ++ (preprocess_data raw ps).y_test.rows,
      ∃ r0 ∈ (cleanData raw).rows, r0.1 = p.1 ∧
        p.2 = [getCell (cleanData raw).colNames r0.2 ps.target_column] := by
  intro p hp
  obtain ⟨e1, e2, e3, e4⟩ := preprocess_data_rows raw ps
  rw [e3, e4, List.take_append_drop] at hp
  unfold selectCols at hp
  obtain ⟨rf, hrf, hpeq⟩ := List.mem_map.mp hp
  have hrf2 : rf ∈ (concatCols (selectCols (pipelineTable raw) [ps.target_column])
      (create_lagged_features (selectCols (pipelineTable raw) ps.features) 1)).rows := by
    unfold fullTable dropna at hrf
    exact (List.mem_filter.mp hrf).1
  unfold concatCols at hrf2
  obtain ⟨i, ry, rx, hy, hx, hfeq⟩ := mem_zipWith hrf2
  unfold selectCols at hy
  rw [List.getElem?_map] at hy
  obtain ⟨rD, hrD, hryeq⟩ := Option.map_eq_some'.mp hy
  have hlen : i < (cleanData raw).rows.length := by
    have hiD : i < (pipelineTable raw).rows.length := by
      by_contra hc
      push_neg at hc
      rw [List.getElem?_eq_none hc] at hrD
      cases hrD
    unfold pipelineTable at hiD
    rwa [addCalendar_rows_length] at hiD
  obtain ⟨r0, hr0⟩ : ∃ r, (cleanData raw).rows[i]? = some r :=
    ⟨_, List.getElem?_eq_getElem hlen⟩
  have hw : r0.2.length = (cleanData raw).colNames.length :=
    cleanData_rect raw hrect r0 (List.getElem?_mem hr0)
  obtain ⟨r2, hi2, hfst2, hget2⟩ :=
    addCalendar_getElem (cleanData raw) i r0 hr0 hw ps.target_column h1 h2 h3 h4
  have hr2D : r2 = rD := by
    unfold pipelineTable at hrD
    rw [hi2] at hrD
    exact Option.some.inj hrD
  have hry : ry = (rD.1, [getCell (pipelineTable raw).colNames rD.2
      ps.target_column]) := by
    rw [← hryeq]
    simp
  have hv : getCell (fullTable raw ps).colNames rf.2 ps.target_column
      = getCell (cleanData raw).colNames r0.2 ps.target_column := by
    rw [fullTable_colNames, hfeq]
    show getCell (ps.target_column :: ps.features.map (fun c => c ++ "_lag1"))
        (ry.2 ++ rx.2) ps.target_column = _
    rw [hry]
    show getCell (ps.target_column :: ps.features.map (fun c => c ++ "_lag1"))
        (getCell (pipelineTable raw).colNames rD.2 ps.target_column :: rx.2)
        ps.target_column = _
    rw [getCell_cons_self]
    rw [← hr2D]
    unfold pipelineTable
    rw [hget2]
  refine ⟨r0, List.getElem?_mem hr0, ?_, ?_⟩
  · rw [← hpeq, hfeq, hry]
    show r0.1 = rD.1
    rw [← hr2D, hfst2]
  · rw [← hpeq]
    show [ps.target_column].map (getCell (fullTable raw ps).colNames rf.2)
      = [getCell (cleanData raw).colNames r0.2 ps.target_column]
    rw [List.map_cons, List.map_nil, hv]

/-- Witness for C7 on the four-row scenario table with target `p`: the
output y row at instant 3 carries the cleaned target value at instant 3. -/
theorem C7_target_unshifted_witness :
    (tsAt 3, [some (40 : ℚ)]) ∈ (preprocess_data rawFour psHalf).y_train.rows
        ++ (preprocess_data rawFour psHalf).y_test.rows ∧
    ∃ r0 ∈ (cleanData rawFour).rows, r0.1 = (tsAt 3, [some (40 : ℚ)]).1 ∧
      (tsAt 3, [some (40 : ℚ)]).2
        = [getCell (cleanData rawFour).colNames r0.2 psHalf.target_column] :=
  ⟨by decide,
    C7_target_unshifted rawFour psHalf (by decide) (by decide) (by decide)
      (by decide) (by decide) (tsAt 3, [some (40 : ℚ)]) (by decide)⟩
